import Mathlib

/-!
Shallow embedding of the `gnuradio-meta-rs` crate (sources: `src/pmt.rs`,
`src/header.rs`, `src/core.rs`), together with proofs settling the claims of
its specification against the code.

Conventions of the embedding:
* Byte streams are `List Nat` (each entry a byte value).
* Rust `panic!`-like events (`todo!()` macros in the source) are modelled by
  a dedicated `panicked` outcome of the result types, distinct from `Err`
  returns.
* Recursive parsers take a fuel argument; fuel exhaustion is mapped to the
  `panicked` outcome and never occurs at the fuel values used in theorems.
* `f64` values that are only ever compared for equality are modelled as `Rat`;
  `i32`/`u64`/`f64` payloads of parsed tags are kept as their raw big-endian
  bit patterns (a faithful bijective representation, since the code performs
  no arithmetic on them).
-/

namespace GnuradioMeta

/-- Outcome of a Rust function that either returns a value or panics
(all `todo!()` calls in the source panic). -/
inductive POut (α : Type) where
  | val (a : α)
  | panicked
  deriving DecidableEq, Repr

namespace pmt

abbrev Bytes := List Nat

/-- Rust `Tag` from src/pmt.rs. `Symbol` holds the raw UTF-8 bytes; `Dict` holds
the `HashMap<String, Tag>` as an association list in insertion order;
`Int32`, `Double` and `UInt64` hold the raw big-endian payload. -/
inductive Tag where
  | Bool (b : Bool)
  | Symbol (s : List Nat)
  | Int32 (n : Nat)
  | Double (n : Nat)
  | Null
  | Pair (a b : Tag)
  | Dict (entries : List (List Nat × Tag))
  | UInt64 (n : Nat)
  | Tuple (xs : List Tag)

/-- Rust `ParseError` from src/pmt.rs. -/
inductive ParseError where
  | UnexpectedEOF
  | MalformedDict
  | IoError
  | Utf8Error
  deriving DecidableEq, Repr

/-- Result of a parser: a value with the remaining input, a `ParseError`, or a
panic (the `todo!("Unimplemented")` arm of `parse_tag`; also used for fuel
exhaustion, which never happens at the fuel values used in the theorems). -/
inductive PRes (α : Type) where
  | ok (a : α)
  | err (e : ParseError)
  | panicked

/-- Rust `expect_byte` from src/pmt.rs: reads one byte, `UnexpectedEOF` if none. -/
def expect_byte (bs : Bytes) : Except ParseError (Nat × Bytes) :=
  match bs with
  | [] => .error .UnexpectedEOF
  | b :: rest => .ok (b, rest)

/-- Rust `reader.read_u16::<BigEndian>()`: `read_exact` of 2 bytes; a short read is
an `std::io::Error`, which converts to `ParseError::IoError`. -/
def read_u16be (bs : Bytes) : Except ParseError (Nat × Bytes) :=
  match bs with
  | b0 :: b1 :: rest => .ok (b0 * 256 + b1, rest)
  | _ => .error .IoError

/-- Rust `read_exact` of 4 big-endian bytes (`read_u32`/`read_i32`), as raw bits. -/
def read_u32be (bs : Bytes) : Except ParseError (Nat × Bytes) :=
  match bs with
  | b0 :: b1 :: b2 :: b3 :: rest =>
      .ok (b0 * 256 ^ 3 + b1 * 256 ^ 2 + b2 * 256 + b3, rest)
  | _ => .error .IoError

/-- Rust `read_exact` of 8 big-endian bytes (`read_u64`/`read_f64`), as raw bits. -/
def read_u64be (bs : Bytes) : Except ParseError (Nat × Bytes) :=
  match bs with
  | b0 :: b1 :: b2 :: b3 :: b4 :: b5 :: b6 :: b7 :: rest =>
      .ok (b0 * 256 ^ 7 + b1 * 256 ^ 6 + b2 * 256 ^ 5 + b3 * 256 ^ 4
        + b4 * 256 ^ 3 + b5 * 256 ^ 2 + b6 * 256 + b7, rest)
  | _ => .error .IoError

/-- Rust `parse_symbol` from src/pmt.rs. The source builds
`Vec::with_capacity(len)`, whose length is 0, and calls
`reader.read(bytes.as_mut_slice())` on its zero-length slice; that read
returns 0 bytes read and consumes nothing, so `bytes_read` is always 0 and the
vector stays empty (`String::from_utf8` of the empty vector is `Ok("")`). -/
def parse_symbol (bs : Bytes) : Except ParseError (Tag × Bytes) :=
  match read_u16be bs with
  | .error e => .error e
  | .ok (len, rest) =>
    let bytes_read : Nat := 0
    if bytes_read ≠ len then .error .UnexpectedEOF
    else .ok (.Symbol [], rest)

/-- Lift an `Except` returned by a helper into the parse-result type. -/
def liftE : Except ParseError α → PRes α
  | .error e => .err e
  | .ok a => .ok a

/-- Rust `HashMap::insert` on the association-list model: replaces the value of an
existing key, otherwise appends the new entry. -/
def insertEntry : List (List Nat × Tag) → List Nat → Tag → List (List Nat × Tag)
  | [], k, v => [(k, v)]
  | (k', v') :: rest, k, v =>
    if k' = k then (k, v) :: rest
    else (k', v') :: insertEntry rest k v

mutual

/-- Rust `parse` from src/pmt.rs, with fuel. -/
def parse : Nat → Bytes → PRes (Tag × Bytes)
  | 0, _ => .panicked
  | f + 1, bs =>
    match expect_byte bs with
    | .error e => .err e
    | .ok (b, rest) => parse_tag f b rest

/-- Rust `parse_tag` from src/pmt.rs. The final arm is `todo!("Unimplemented")`:
an unrecognized leading byte panics. -/
def parse_tag : Nat → Nat → Bytes → PRes (Tag × Bytes)
  | 0, _, _ => .panicked
  | f + 1, kind, bs =>
    if kind = 0x0 then .ok (.Bool true, bs)
    else if kind = 0x1 then .ok (.Bool false, bs)
    else if kind = 0x2 then liftE (parse_symbol bs)
    else if kind = 0x3 then
      match read_u32be bs with
      | .error e => .err e
      | .ok (n, rest) => .ok (.Int32 n, rest)
    else if kind = 0x4 then
      match read_u64be bs with
      | .error e => .err e
      | .ok (n, rest) => .ok (.Double n, rest)
    else if kind = 0x6 then .ok (.Null, bs)
    else if kind = 0x7 then parse_pair f bs
    else if kind = 0x9 then parse_dict f bs
    else if kind = 0xb then
      match read_u64be bs with
      | .error e => .err e
      | .ok (n, rest) => .ok (.UInt64 n, rest)
    else if kind = 0xc then parse_tuple f bs
    else .panicked

/-- Rust `parse_pair_inner` from src/pmt.rs. -/
def parse_pair_inner : Nat → Bytes → PRes ((Tag × Tag) × Bytes)
  | 0, _ => .panicked
  | f + 1, bs =>
    match parse f bs with
    | .err e => .err e
    | .panicked => .panicked
    | .ok (first, bs1) =>
      match parse f bs1 with
      | .err e => .err e
      | .panicked => .panicked
      | .ok (second, bs2) => .ok ((first, second), bs2)

/-- Rust `parse_pair` from src/pmt.rs. -/
def parse_pair : Nat → Bytes → PRes (Tag × Bytes)
  | 0, _ => .panicked
  | f + 1, bs =>
    match parse_pair_inner f bs with
    | .err e => .err e
    | .panicked => .panicked
    | .ok (ab, rest) => .ok (.Pair ab.1 ab.2, rest)

/-- Rust `parse_dict_inner` from src/pmt.rs: requires a `0x7` pair byte, parses the
pair, requires its first component to be a `Symbol`, inserts it, then either
finishes on `0x6`, continues on `0x9`, or reports `MalformedDict`. -/
def parse_dict_inner : Nat → List (List Nat × Tag) → Bytes →
    PRes (List (List Nat × Tag) × Bytes)
  | 0, _, _ => .panicked
  | f + 1, tgt, bs =>
    match expect_byte bs with
    | .error e => .err e
    | .ok (b, bs1) =>
      if b ≠ 0x7 then .err .MalformedDict
      else
        match parse_pair_inner f bs1 with
        | .err e => .err e
        | .panicked => .panicked
        | .ok (pair, bs2) =>
          match pair with
          | (.Symbol name, value) =>
            match expect_byte bs2 with
            | .error e => .err e
            | .ok (next_byte, bs3) =>
              if next_byte = 0x6 then .ok (insertEntry tgt name value, bs3)
              else if next_byte = 0x9 then
                parse_dict_inner f (insertEntry tgt name value) bs3
              else .err .MalformedDict
          | _ => .err .MalformedDict

/-- Rust `parse_dict` from src/pmt.rs. -/
def parse_dict : Nat → Bytes → PRes (Tag × Bytes)
  | 0, _ => .panicked
  | f + 1, bs =>
    match parse_dict_inner f [] bs with
    | .err e => .err e
    | .panicked => .panicked
    | .ok (dict, rest) => .ok (.Dict dict, rest)

/-- The `for _ in 0..num` loop of `parse_tuple` from src/pmt.rs. -/
def parse_tuple_loop : Nat → Nat → Bytes → PRes (List Tag × Bytes)
  | 0, _, _ => .panicked
  | _ + 1, 0, bs => .ok ([], bs)
  | f + 1, n + 1, bs =>
    match parse f bs with
    | .err e => .err e
    | .panicked => .panicked
    | .ok (t, bs1) =>
      match parse_tuple_loop f n bs1 with
      | .err e => .err e
      | .panicked => .panicked
      | .ok (ts, bs2) => .ok (t :: ts, bs2)

/-- Rust `parse_tuple` from src/pmt.rs. -/
def parse_tuple : Nat → Bytes → PRes (Tag × Bytes)
  | 0, _ => .panicked
  | f + 1, bs =>
    match read_u32be bs with
    | .error e => .err e
    | .ok (num, rest) =>
      match parse_tuple_loop f num rest with
      | .err e => .err e
      | .panicked => .panicked
      | .ok (vec, bs1) => .ok (.Tuple vec, bs1)

end

mutual

/-- A `Tag` all of whose `Dict` values (at any depth) hold at least one
key-value entry. -/
def Tag.dictsNonempty : Tag → Bool
  | .Bool _ => true
  | .Symbol _ => true
  | .Int32 _ => true
  | .Double _ => true
  | .Null => true
  | .UInt64 _ => true
  | .Pair a b => a.dictsNonempty && b.dictsNonempty
  | .Dict entries => !entries.isEmpty && dictsNonemptyEntries entries
  | .Tuple xs => dictsNonemptyList xs

/-- Conjunction of `Tag.dictsNonempty` over the elements of a tuple. -/
def dictsNonemptyList : List Tag → Bool
  | [] => true
  | t :: ts => t.dictsNonempty && dictsNonemptyList ts

/-- Conjunction of `Tag.dictsNonempty` over the values of a dictionary. -/
def dictsNonemptyEntries : List (List Nat × Tag) → Bool
  | [] => true
  | kv :: rest => kv.2.dictsNonempty && dictsNonemptyEntries rest

end

mutual

/-- Rust `Tag` structural equality, mirroring the derived `PartialEq` of
src/pmt.rs (dictionaries are compared entry-wise in order; the code only ever
uses this comparison on dead paths past a panic). -/
def tagBEq : Tag → Tag → Bool
  | .Bool a, .Bool b => a == b
  | .Symbol a, .Symbol b => a == b
  | .Int32 a, .Int32 b => a == b
  | .Double a, .Double b => a == b
  | .Null, .Null => true
  | .Pair a1 a2, .Pair b1 b2 => tagBEq a1 b1 && tagBEq a2 b2
  | .Dict a, .Dict b => tagEntriesBEq a b
  | .UInt64 a, .UInt64 b => a == b
  | .Tuple a, .Tuple b => tagListBEq a b
  | _, _ => false

def tagListBEq : List Tag → List Tag → Bool
  | [], [] => true
  | x :: xs, y :: ys => tagBEq x y && tagListBEq xs ys
  | _, _ => false

def tagEntriesBEq : List (List Nat × Tag) → List (List Nat × Tag) → Bool
  | [], [] => true
  | x :: xs, y :: ys => x.1 == y.1 && tagBEq x.2 y.2 && tagEntriesBEq xs ys
  | _, _ => false

end

/-- Big-endian `u16` as two bytes. -/
def u16be (n : Nat) : List Nat := [n / 256 % 256, n % 256]

/-- Big-endian `u32` as four bytes. -/
def u32be (n : Nat) : List Nat :=
  [n / 256 ^ 3 % 256, n / 256 ^ 2 % 256, n / 256 % 256, n % 256]

/-- Big-endian `u64` as eight bytes. -/
def u64be (n : Nat) : List Nat :=
  [n / 256 ^ 7 % 256, n / 256 ^ 6 % 256, n / 256 ^ 5 % 256, n / 256 ^ 4 % 256,
    n / 256 ^ 3 % 256, n / 256 ^ 2 % 256, n / 256 % 256, n % 256]

mutual

/-- Modelled from the spec: the repository has no writer, so this encoder
follows spec section 4.1 word for word — big-endian, one leading type byte per
record; `0x0`/`0x1` Bool; `0x2` Symbol (u16 length + UTF-8 bytes); `0x3`
Int32; `0x4` Double; `0x6` Null; `0x7` Pair; `0x9` Dict as a right-nested
chain `pair(symbol, value)` terminated by a Null byte or continued by another
`0x9`; `0xb` UInt64; `0xc` Tuple (u32 count + records). -/
def encode : Tag → List Nat
  | .Bool true => [0x0]
  | .Bool false => [0x1]
  | .Symbol s => 0x2 :: u16be s.length ++ s
  | .Int32 n => 0x3 :: u32be n
  | .Double n => 0x4 :: u64be n
  | .Null => [0x6]
  | .Pair a b => 0x7 :: (encode a ++ encode b)
  | .Dict entries => 0x9 :: encodeDictChain entries
  | .UInt64 n => 0xb :: u64be n
  | .Tuple xs => 0xc :: u32be xs.length ++ encodeList xs

/-- Modelled from the spec: the body of a Dict record after its `0x9` byte —
each entry is a `0x7` pair of a symbol and a value, continued by `0x9` or
terminated by the Null byte `0x6`. -/
def encodeDictChain : List (List Nat × Tag) → List Nat
  | [] => [0x6]
  | (k, v) :: rest =>
    0x7 :: (0x2 :: u16be k.length ++ k) ++ encode v ++
      match rest with
      | [] => [0x6]
      | _ :: _ => 0x9 :: encodeDictChain rest

/-- Modelled from the spec: the concatenated records of a tuple. -/
def encodeList : List Tag → List Nat
  | [] => []
  | t :: ts => encode t ++ encodeList ts

end

end pmt

namespace header

/-- Rust `SeekPreserve` from src/header.rs. -/
inductive SeekPreserve where
  | None
  | Format
  | Convertability
  | SampleRate
  | SampleRateAndConvertability
  | All
  | Segment
  deriving DecidableEq, Repr

/-- Rust `SeekPreserve::preserves_format` from src/header.rs. -/
def SeekPreserve.preserves_format (self : SeekPreserve) : Bool :=
  decide (self = .Format) || decide (self = .All) || decide (self = .Segment)

/-- Rust `SeekPreserve::preserves_convertability` from src/header.rs. -/
def SeekPreserve.preserves_convertability (self : SeekPreserve) : Bool :=
  decide (self ≠ .None) && decide (self ≠ .SampleRate)

/-- Rust `SeekPreserve::preserves_samplerate` from src/header.rs. -/
def SeekPreserve.preserves_samplerate (self : SeekPreserve) : Bool :=
  decide (self ≠ .None) && decide (self ≠ .Format) &&
    decide (self ≠ .Convertability)

/-- Rust `InvalidHeaderError` from src/header.rs. -/
inductive InvalidHeaderError where
  | HeaderNotDictionary
  | MissingField (f : String)
  | WrongTypeField (f : String)
  | WrongDataType (i : Int)
  deriving DecidableEq, Repr

/-- Rust `DataType` from src/header.rs. -/
inductive DataType where
  | Byte
  | Short
  | Int
  | Float
  | Double
  deriving DecidableEq, Repr

/-- The scalar machine types a segment element can be read or converted
into: `i8`, `i16`, `i32`, `f32`, `f64`. -/
inductive NativeScalar where
  | i8
  | i16
  | i32
  | f32
  | f64
  deriving DecidableEq, Repr

/-- The generic target type `T` of `reads_directly_to::<T>` and
`converts_to::<T>`, restricted to the ten native representations the spec
quantifies over: the five scalars and their `Complex<_>` interleavings.
Equality of `TargetTy` values models Rust `TypeId` equality. -/
inductive TargetTy where
  | scalar (s : NativeScalar)
  | cplx (s : NativeScalar)
  deriving DecidableEq, Repr

/-- Rust `DataType::is_floating` from src/header.rs. -/
def DataType.is_floating (self : DataType) : Bool :=
  decide (self = .Float) || decide (self = .Double)

/-- Rust `DataType::reads_directly_to::<T>(complex)` from src/header.rs. -/
def DataType.reads_directly_to (self : DataType) (complex : Bool)
    (T : TargetTy) : Bool :=
  if complex then
    match self with
    | .Byte => decide (T = .cplx .i8)
    | .Short => decide (T = .cplx .i16)
    | .Int => decide (T = .cplx .i32)
    | .Float => decide (T = .cplx .f32)
    | .Double => decide (T = .cplx .f64)
  else
    match self with
    | .Byte => decide (T = .scalar .i8)
    | .Short => decide (T = .scalar .i16)
    | .Int => decide (T = .scalar .i32)
    | .Float => decide (T = .scalar .f32)
    | .Double => decide (T = .scalar .f64)

/-- Rust `DataType::converts_to::<T>(complex)` from src/header.rs. -/
def DataType.converts_to (self : DataType) (complex : Bool)
    (T : TargetTy) : Bool :=
  if complex then
    match self with
    | .Byte =>
      decide (T = .cplx .f64) || decide (T = .cplx .f32) ||
        decide (T = .cplx .i32) || decide (T = .cplx .i16) ||
        decide (T = .cplx .i8)
    | .Short =>
      decide (T = .cplx .f64) || decide (T = .cplx .f32) ||
        decide (T = .cplx .i32) || decide (T = .cplx .i16)
    | .Int =>
      decide (T = .cplx .f64) || decide (T = .cplx .f32) ||
        decide (T = .cplx .i32)
    | .Float => decide (T = .cplx .f64) || decide (T = .cplx .f32)
    | .Double => decide (T = .cplx .f64) || decide (T = .cplx .f32)
  else
    match self with
    | .Byte =>
      decide (T = .scalar .f64) || decide (T = .scalar .f32) ||
        decide (T = .scalar .i32) || decide (T = .scalar .i16) ||
        decide (T = .scalar .i8)
    | .Short =>
      decide (T = .scalar .f64) || decide (T = .scalar .f32) ||
        decide (T = .scalar .i32) || decide (T = .scalar .i16)
    | .Int =>
      decide (T = .scalar .f64) || decide (T = .scalar .f32) ||
        decide (T = .scalar .i32)
    | .Float => decide (T = .scalar .f64) || decide (T = .scalar .f32)
    | .Double => decide (T = .scalar .f64) || decide (T = .scalar .f32)

/-- A `DataType`'s own native representation under a complex flag, per the
doc comments of src/header.rs ("Directly convertible to i8", ...). -/
def DataType.nativeRep (self : DataType) (complex : Bool) : TargetTy :=
  let s : NativeScalar :=
    match self with
    | .Byte => .i8
    | .Short => .i16
    | .Int => .i32
    | .Float => .f32
    | .Double => .f64
  if complex then .cplx s else .scalar s

/-- Rust `DataType::converts_to_dtype` from src/header.rs is
`todo!("Implement")`: every call panics. -/
def DataType.converts_to_dtype (self other : DataType) : POut Bool :=
  .panicked

/-- Rust `DataType::from_int` from src/header.rs: the match maps only `0` to
`Self::Byte` and sends every other value to `WrongDataType`. -/
def DataType.from_int (i : ℤ) : Except InvalidHeaderError DataType :=
  if i = 0 then .ok .Byte
  else .error (.WrongDataType i)

/-- Rust `Timestamp` (`fixed::FixedI128<U64>` from src/core.rs, imported by
src/header.rs): the raw fixed-point value, i.e. seconds scaled by `2 ^ 64`. -/
abbrev Timestamp := Int

/-- Rust `Header` from src/header.rs. `f64` fields are modelled as `Rat` (they are
only compared or multiplied by rationals in the embedded code). -/
structure Header where
  samp_rate : Rat
  samp_dur : Rat
  rx_time : Timestamp
  size : Int
  dtype : DataType
  cplx : Bool
  strt : Nat
  bytes : Nat
  extra_dict : pmt.Tag
  abs_pos : Nat
  pos_in_file : Nat

/-- Rust `Header::get_num_samples` from src/header.rs is `todo!("Implement")`:
every call panics. -/
def Header.get_num_samples (self : Header) : POut Nat :=
  .panicked

/-- Rust `Header::get_sample_time` from src/header.rs is `todo!("Implement")`:
every call panics. -/
def Header.get_sample_time (self : Header) (sample : Int) : POut Timestamp :=
  .panicked

/-- Rust `Header::get_sample_duration` from src/header.rs. -/
def Header.get_sample_duration (self : Header) : Rat :=
  self.samp_dur

/-- Rust `Header::is_compatible_with` from src/header.rs. The `&&` operators
short-circuit, so `converts_to_dtype` (which panics) is reached exactly when
`preserves_convertability()` holds and the first two checks pass. -/
def Header.is_compatible_with (self other : Header) (preserve : SeekPreserve) :
    POut Bool :=
  if preserve.preserves_samplerate && decide (other.samp_rate ≠ self.samp_rate)
  then .val false
  else if preserve.preserves_format && decide (other.dtype ≠ self.dtype) then
    .val false
  else if preserve.preserves_convertability then
    match DataType.converts_to_dtype other.dtype self.dtype with
    | .panicked => .panicked
    | .val b => if !b then .val false else .val true
  else .val true

/-- Rust `Header::is_continuation_of` from src/header.rs. Its very first step,
`other.get_num_samples()`, panics; the rest (modelling `abs_diff` on the raw
fixed-point values and `to_num::<f64>` as division by `2 ^ 64` over `Rat`) is
dead code. -/
def Header.is_continuation_of (self other : Header) : POut Bool :=
  match other.get_num_samples with
  | .panicked => .panicked
  | .val n =>
    let last_sample_t : POut Timestamp :=
      if n = 0 then .val other.rx_time
      else other.get_sample_time ((n : Int) - 1)
    match last_sample_t with
    | .panicked => .panicked
    | .val t =>
      let diff : Rat := ((|self.rx_time - t| : Int) : Rat) / 2 ^ 64
      .val (decide (diff ≤ 1 / 10 * other.get_sample_duration))

end header

namespace core

/-- Rust `Timestamp` from src/core.rs (`fixed::FixedI128<U64>`), as its raw
fixed-point value. -/
abbrev Timestamp := Int

/-- Rust `DataType` from src/core.rs (the module has its own copy, separate from
the one in src/header.rs). -/
inductive DataType where
  | Byte
  | Short
  | Int
  | Float
  | Double
  deriving DecidableEq, Repr

/-- Rust `DataType::reads_directly_to::<T>` from src/core.rs is
`todo!("Implement")`: every call panics, for every target type `T`. -/
def DataType.reads_directly_to (self : DataType) : POut Bool :=
  .panicked

/-- Rust `DataType::converts_to::<T>` from src/core.rs is `todo!("Implement")`. -/
def DataType.converts_to (self : DataType) : POut Bool :=
  .panicked

/-- Rust `DataType::converts_to_dtype` from src/core.rs is `todo!("Implement")`. -/
def DataType.converts_to_dtype (self other : DataType) : POut Bool :=
  .panicked

/-- Rust `MetaFileError` from src/core.rs. -/
inductive MetaFileError where
  | IoError
  | ParseError (e : pmt.ParseError)
  deriving DecidableEq, Repr

/-- Result of an engine operation: a value, a `MetaFileError`, or a panic
(also used for fuel exhaustion of the embedded loops, which never occurs at
the fuel values used in the theorems). -/
inductive EngRes (α : Type) where
  | ok (a : α)
  | err (e : MetaFileError)
  | panicked

/-- Rust `SeekPreserve` from src/core.rs (again a module-local copy). -/
inductive SeekPreserve where
  | None
  | Format
  | Convertability
  | SampleRate
  | SampleRateAndConvertability
  | All
  | Segment
  deriving DecidableEq, Repr

/-- Rust `SeekPreserve::preserves_format` from src/core.rs. -/
def SeekPreserve.preserves_format (self : SeekPreserve) : Bool :=
  decide (self = .Format) || decide (self = .All) || decide (self = .Segment)

/-- Rust `SeekPreserve::preserves_convertability` from src/core.rs. -/
def SeekPreserve.preserves_convertability (self : SeekPreserve) : Bool :=
  decide (self ≠ .None) && decide (self ≠ .SampleRate)

/-- Rust `SeekPreserve::preserves_samplerate` from src/core.rs. -/
def SeekPreserve.preserves_samplerate (self : SeekPreserve) : Bool :=
  decide (self ≠ .None) && decide (self ≠ .Format) &&
    decide (self ≠ .Convertability)

/-- Rust `Header` from src/core.rs. -/
structure Header where
  samp_rate : Rat
  samp_dur : Rat
  rx_time : Timestamp
  size : Nat
  dtype : DataType
  cplx : Bool
  strt : Nat
  bytes : Nat
  extra_dict : pmt.Tag
  abs_pos : Nat
  pos_in_file : Nat

/-- The derived `PartialEq` of `Header` from src/core.rs (field-wise;
`extra_dict` compared through the `Tag` comparison). -/
def Header.beq (a b : Header) : Bool :=
  decide (a.samp_rate = b.samp_rate) && decide (a.samp_dur = b.samp_dur) &&
    decide (a.rx_time = b.rx_time) && decide (a.size = b.size) &&
    decide (a.dtype = b.dtype) && decide (a.cplx = b.cplx) &&
    decide (a.strt = b.strt) && decide (a.bytes = b.bytes) &&
    pmt.tagBEq a.extra_dict b.extra_dict && decide (a.abs_pos = b.abs_pos) &&
    decide (a.pos_in_file = b.pos_in_file)

/-- Rust `Header::get_num_samples` from src/core.rs is `todo!("Implement")`. -/
def Header.get_num_samples (self : Header) : POut Nat :=
  .panicked

/-- Rust `Header::get_sample_time` from src/core.rs is `todo!("Implement")`. -/
def Header.get_sample_time (self : Header) (sample : Int) : POut Timestamp :=
  .panicked

/-- Rust `Header::get_sample_duration` from src/core.rs. -/
def Header.get_sample_duration (self : Header) : Rat :=
  self.samp_dur

/-- Rust `Header::get_sample_pos_of_byte` from src/core.rs is
`todo!("Implement")`. -/
def Header.get_sample_pos_of_byte (self : Header) (byte : Nat) : POut Nat :=
  .panicked

/-- Rust `Header::is_compatible_with` from src/core.rs (same text as the
src/header.rs copy, calling the module's own panicking
`converts_to_dtype`). -/
def Header.is_compatible_with (self other : Header) (preserve : SeekPreserve) :
    POut Bool :=
  if preserve.preserves_samplerate && decide (other.samp_rate ≠ self.samp_rate)
  then .val false
  else if preserve.preserves_format && decide (other.dtype ≠ self.dtype) then
    .val false
  else if preserve.preserves_convertability then
    match DataType.converts_to_dtype other.dtype self.dtype with
    | .panicked => .panicked
    | .val b => if !b then .val false else .val true
  else .val true

/-- Rust `Header::is_continuation_of` from src/core.rs; its first step,
`other.get_num_samples()`, panics. -/
def Header.is_continuation_of (self other : Header) : POut Bool :=
  match other.get_num_samples with
  | .panicked => .panicked
  | .val n =>
    let last_sample_t : POut Timestamp :=
      if n = 0 then .val other.rx_time
      else other.get_sample_time ((n : Int) - 1)
    match last_sample_t with
    | .panicked => .panicked
    | .val t =>
      let diff : Rat := ((|self.rx_time - t| : Int) : Rat) / 2 ^ 64
      .val (decide (diff ≤ 1 / 10 * other.get_sample_duration))

/-- Rust `BTreeMap::insert` on a key-sorted association list. -/
def btreeInsert : List (Nat × Header) → Nat → Header → List (Nat × Header)
  | [], k, h => [(k, h)]
  | (k', h') :: rest, k, h =>
    if k = k' then (k, h) :: rest
    else if k < k' then (k, h) :: (k', h') :: rest
    else (k', h') :: btreeInsert rest k h

/-- Rust `HeaderStorage` from src/core.rs: the `BTreeMap<u64, Header>` as a
key-sorted association list. -/
structure HeaderStorage where
  store : List (Nat × Header)

/-- Rust `HeaderStorage::get_header_for_byte` from src/core.rs is `todo!()`:
every call panics. -/
def HeaderStorage.get_header_for_byte (self : HeaderStorage) (byte : Nat) :
    POut (Option Header) :=
  .panicked

/-- Rust `HeaderStorage::add_header_for_byte` from src/core.rs: a plain
`BTreeMap::insert` (the comment about checking previous headers is not
implemented). -/
def HeaderStorage.add_header_for_byte (self : HeaderStorage) (byte : Nat)
    (hdr : Header) : HeaderStorage :=
  ⟨btreeInsert self.store byte hdr⟩

/-- Rust `BTreeMap::last_entry`: the greatest-key entry, i.e. the last entry of
the sorted association list. -/
def HeaderStorage.last_entry (self : HeaderStorage) : Option (Nat × Header) :=
  self.store.getLast?

/-- A `HeaderReader` implementor from src/core.rs, as explicit strategy
state `σ` with the two trait methods that are not defaulted: access to the
`HeaderStorage` and `load_next_header`. -/
structure Strategy (σ : Type) where
  storage : σ → HeaderStorage
  set_storage : σ → HeaderStorage → σ
  load_next_header : σ → Nat → EngRes (Option Header × σ)

/-- Rust `HeaderReader::get_first_byte_of_next_header_to_read` from src/core.rs:
`last.get().abs_pos + last.get().bytes + 1`, or 0 with no headers loaded. -/
def get_first_byte_of_next_header_to_read (storage : HeaderStorage) : Nat :=
  match storage.last_entry with
  | none => 0
  | some last => last.2.abs_pos + last.2.bytes + 1

/-- The `loop` of `HeaderReader::get_header_for_byte` from src/core.rs,
with fuel. -/
def get_header_for_byte_loop {σ : Type} (St : Strategy σ) :
    Nat → σ → Nat → EngRes (Option Header × σ)
  | 0, _, _ => .panicked
  | fuel + 1, s, byte =>
    let first_byte := get_first_byte_of_next_header_to_read (St.storage s)
    if byte ≤ first_byte then
      match (St.storage s).get_header_for_byte byte with
      | .panicked => .panicked
      | .val r => .ok (r, s)
    else
      match St.load_next_header s first_byte with
      | .panicked => .panicked
      | .err e => .err e
      | .ok (some v, s1) =>
        get_header_for_byte_loop St fuel
          (St.set_storage s1 ((St.storage s1).add_header_for_byte first_byte v))
          byte
      | .ok (none, s1) => .ok (none, s1)

/-- Rust `HeaderReader::get_header_for_byte` from src/core.rs: first the storage
lookup (which panics), then the lazy-loading loop. -/
def HeaderReader.get_header_for_byte {σ : Type} (St : Strategy σ) (fuel : Nat)
    (s : σ) (byte : Nat) : EngRes (Option Header × σ) :=
  match (St.storage s).get_header_for_byte byte with
  | .panicked => .panicked
  | .val (some v) => .ok (some v, s)
  | .val none => get_header_for_byte_loop St fuel s byte

/-- The state of a `SampleReadSeek` implementor from src/core.rs: the header
reader state and the binary stream's cursor (`stream_position`). -/
structure Engine (σ : Type) where
  hdr : σ
  pos : Nat

/-- Rust `SampleReadSeek::get_last_read_header` from src/core.rs. -/
def get_last_read_header {σ : Type} (St : Strategy σ) (fuel : Nat)
    (e : Engine σ) : EngRes (Option Header × Engine σ) :=
  match HeaderReader.get_header_for_byte St fuel e.hdr e.pos with
  | .panicked => .panicked
  | .err er => .err er
  | .ok (r, s1) => .ok (r, ⟨s1, e.pos⟩)

/-- Rust `SampleReadSeek::get_last_and_applicable_header` from src/core.rs. -/
def get_last_and_applicable_header {σ : Type} (St : Strategy σ) (fuel : Nat)
    (e : Engine σ) : EngRes (Option (Header × Header) × Engine σ) :=
  match get_last_read_header St fuel e with
  | .panicked => .panicked
  | .err er => .err er
  | .ok (none, e1) => .ok (none, e1)
  | .ok (some last_header, e1) =>
    if last_header.abs_pos + last_header.bytes ≤ e1.pos then
      let e2 : Engine σ := ⟨e1.hdr, e1.pos + 1⟩
      match HeaderReader.get_header_for_byte St fuel e2.hdr e2.pos with
      | .panicked => .panicked
      | .err er => .err er
      | .ok (none, s1) => .ok (none, ⟨s1, e2.pos⟩)
      | .ok (some out, s1) => .ok (some (last_header, out), ⟨s1, out.abs_pos⟩)
    else .ok (some (last_header, last_header), e1)

/-- Rust `read_raw` from src/core.rs is `todo!()`: every call panics. -/
def read_raw {σ : Type} (e : Engine σ) (count : Nat) : EngRes (Nat × Engine σ) :=
  .panicked

/-- Outcome of one iteration of the `while` loop of
`SampleReadSeek::read_samples`. -/
inductive StepRes (σ : Type) where
  | stop (e : Engine σ)
  | advance (n : Nat) (e : Engine σ)
  | err (er : MetaFileError)
  | panicked

/-- The body of one iteration of the `while` loop of
`SampleReadSeek::read_samples` from src/core.rs: find the headers, gate on
`reads_directly_to`, on `is_compatible_with(.., All)` and
`is_continuation_of` across a segment change, then copy
`min(buffer remaining, samples remaining)` samples with `read_raw`. -/
def read_samples_step {σ : Type} (St : Strategy σ) (fuel : Nat)
    (num_read bufLen : Nat) (e : Engine σ) : StepRes σ :=
  match get_last_and_applicable_header St fuel e with
  | .panicked => .panicked
  | .err er => .err er
  | .ok (none, e1) => .stop e1
  | .ok (some (last_header, appl_header), e1) =>
    match appl_header.dtype.reads_directly_to with
    | .panicked => .panicked
    | .val rd =>
      if !rd then .stop e1
      else
        let gate : POut Bool :=
          if !(Header.beq appl_header last_header) then
            match appl_header.is_compatible_with last_header .All with
            | .panicked => .panicked
            | .val compat =>
              if !compat then .val false
              else appl_header.is_continuation_of last_header
          else .val true
        match gate with
        | .panicked => .panicked
        | .val go =>
          if !go then .stop e1
          else
            let buff_remain := bufLen - num_read
            match appl_header.get_sample_pos_of_byte e1.pos with
            | .panicked => .panicked
            | .val cur_sample =>
              match appl_header.get_num_samples with
              | .panicked => .panicked
              | .val ns =>
                let samps_remain := ns - cur_sample
                let to_read := min buff_remain samps_remain
                match read_raw e1 to_read with
                | .panicked => .panicked
                | .err er => .err er
                | .ok (n, e2) => .advance n e2

/-- The `while num_read < buf.len()` loop of `read_samples`, with fuel. -/
def read_samples_loop {σ : Type} (St : Strategy σ) (fuel : Nat) :
    Nat → Nat → Nat → Engine σ → EngRes (Nat × Engine σ)
  | 0, _, _, _ => .panicked
  | f + 1, num_read, bufLen, e =>
    if num_read < bufLen then
      match read_samples_step St fuel num_read bufLen e with
      | .panicked => .panicked
      | .err er => .err er
      | .stop e1 => .ok (num_read, e1)
      | .advance n e1 => read_samples_loop St fuel f (num_read + n) bufLen e1
    else .ok (num_read, e)

/-- Rust `SampleReadSeek::read_samples` from src/core.rs, over a buffer of
`bufLen` slots. -/
def read_samples {σ : Type} (St : Strategy σ) (fuel : Nat) (bufLen : Nat)
    (e : Engine σ) : EngRes (Nat × Engine σ) :=
  read_samples_loop St fuel (fuel + 1) 0 bufLen e

end core

/-! Helper lemmas about the tag parser, used to settle the dictionary
claims. -/

namespace pmt

theorem dictsNonemptyEntries_insertEntry (m : List (List Nat × Tag))
    (k : List Nat) (v : Tag) (hm : dictsNonemptyEntries m = true)
    (hv : v.dictsNonempty = true) :
    dictsNonemptyEntries (insertEntry m k v) = true := by
  induction m with
  | nil => simp [insertEntry, dictsNonemptyEntries, hv]
  | cons kv rest ih =>
    obtain ⟨k', v'⟩ := kv
    simp only [dictsNonemptyEntries, Bool.and_eq_true] at hm
    simp only [insertEntry]
    split
    · simp [dictsNonemptyEntries, hv, hm.2]
    · simp [dictsNonemptyEntries, hm.1, ih hm.2]

theorem insertEntry_length_pos (m : List (List Nat × Tag)) (k : List Nat)
    (v : Tag) : 0 < (insertEntry m k v).length := by
  induction m with
  | nil => simp [insertEntry]
  | cons kv rest ih =>
    obtain ⟨k', v'⟩ := kv
    simp only [insertEntry]
    split <;> simp

theorem parse_symbol_shape {bs r : Bytes} {t : Tag}
    (h : parse_symbol bs = .ok (t, r)) : t = .Symbol [] := by
  unfold parse_symbol at h
  rcases h16 : read_u16be bs with e | ⟨len, rest⟩ <;> rw [h16] at h
  · simp at h
  · simp only [] at h
    split at h <;> simp_all

theorem parse_nonempty_aux : ∀ f : Nat,
    (∀ bs t r, parse f bs = .ok (t, r) → t.dictsNonempty = true) ∧
    (∀ k bs t r, parse_tag f k bs = .ok (t, r) → t.dictsNonempty = true) ∧
    (∀ bs p r, parse_pair_inner f bs = .ok (p, r) →
      p.1.dictsNonempty = true ∧ p.2.dictsNonempty = true) ∧
    (∀ bs t r, parse_pair f bs = .ok (t, r) → t.dictsNonempty = true) ∧
    (∀ tgt bs m r, dictsNonemptyEntries tgt = true →
      parse_dict_inner f tgt bs = .ok (m, r) →
      dictsNonemptyEntries m = true ∧ 0 < m.length) ∧
    (∀ bs t r, parse_dict f bs = .ok (t, r) → t.dictsNonempty = true) ∧
    (∀ n bs ts r, parse_tuple_loop f n bs = .ok (ts, r) →
      dictsNonemptyList ts = true) ∧
    (∀ bs t r, parse_tuple f bs = .ok (t, r) → t.dictsNonempty = true) := by
  intro f
  induction f with
  | zero =>
    refine ⟨?_, ?_, ?_, ?_, ?_, ?_, ?_, ?_⟩ <;> intros <;>
      simp_all [parse, parse_tag, parse_pair_inner, parse_pair,
        parse_dict_inner, parse_dict, parse_tuple_loop, parse_tuple]
  | succ f ih =>
    obtain ⟨ihp, iht, ihpi, ihpp, ihdi, ihd, ihtl, ihtu⟩ := ih
    refine ⟨?_, ?_, ?_, ?_, ?_, ?_, ?_, ?_⟩
    · -- parse
      intro bs t r h
      simp only [parse] at h
      rcases hb : expect_byte bs with e | ⟨b, rest⟩ <;> rw [hb] at h
      · simp at h
      · exact iht b rest t r h
    · -- parse_tag
      intro k bs t r h
      by_cases hk0 : k = 0x0
      · subst hk0
        simp only [parse_tag, Nat.reduceEqDiff, reduceIte] at h
        simp only [PRes.ok.injEq, Prod.mk.injEq] at h
        obtain ⟨ht, -⟩ := h
        subst ht
        simp [Tag.dictsNonempty]
      by_cases hk1 : k = 0x1
      · subst hk1
        simp only [parse_tag, Nat.reduceEqDiff, reduceIte] at h
        simp only [PRes.ok.injEq, Prod.mk.injEq] at h
        obtain ⟨ht, -⟩ := h
        subst ht
        simp [Tag.dictsNonempty]
      by_cases hk2 : k = 0x2
      · subst hk2
        simp only [parse_tag, Nat.reduceEqDiff, reduceIte] at h
        rcases hs : parse_symbol bs with e | ⟨tg, rest⟩ <;> rw [hs] at h
        · simp [liftE] at h
        · simp only [liftE, PRes.ok.injEq, Prod.mk.injEq] at h
          obtain ⟨ht, -⟩ := h
          subst ht
          rw [parse_symbol_shape hs]
          simp [Tag.dictsNonempty]
      by_cases hk3 : k = 0x3
      · subst hk3
        simp only [parse_tag, Nat.reduceEqDiff, reduceIte] at h
        rcases h32 : read_u32be bs with e | ⟨n, rest⟩ <;> rw [h32] at h
        · simp at h
        · simp only [PRes.ok.injEq, Prod.mk.injEq] at h
          obtain ⟨ht, -⟩ := h
          subst ht
          simp [Tag.dictsNonempty]
      by_cases hk4 : k = 0x4
      · subst hk4
        simp only [parse_tag, Nat.reduceEqDiff, reduceIte] at h
        rcases h64 : read_u64be bs with e | ⟨n, rest⟩ <;> rw [h64] at h
        · simp at h
        · simp only [PRes.ok.injEq, Prod.mk.injEq] at h
          obtain ⟨ht, -⟩ := h
          subst ht
          simp [Tag.dictsNonempty]
      by_cases hk6 : k = 0x6
      · subst hk6
        simp only [parse_tag, Nat.reduceEqDiff, reduceIte] at h
        simp only [PRes.ok.injEq, Prod.mk.injEq] at h
        obtain ⟨ht, -⟩ := h
        subst ht
        simp [Tag.dictsNonempty]
      by_cases hk7 : k = 0x7
      · subst hk7
        simp only [parse_tag, Nat.reduceEqDiff, reduceIte] at h
        exact ihpp bs t r h
      by_cases hk9 : k = 0x9
      · subst hk9
        simp only [parse_tag, Nat.reduceEqDiff, reduceIte] at h
        exact ihd bs t r h
      by_cases hkb : k = 0xb
      · subst hkb
        simp only [parse_tag, Nat.reduceEqDiff, reduceIte] at h
        rcases h64 : read_u64be bs with e | ⟨n, rest⟩ <;> rw [h64] at h
        · simp at h
        · simp only [PRes.ok.injEq, Prod.mk.injEq] at h
          obtain ⟨ht, -⟩ := h
          subst ht
          simp [Tag.dictsNonempty]
      by_cases hkc : k = 0xc
      · subst hkc
        simp only [parse_tag, Nat.reduceEqDiff, reduceIte] at h
        exact ihtu bs t r h
      simp only [parse_tag, hk0, hk1, hk2, hk3, hk4, hk6, hk7, hk9, hkb, hkc,
        if_false, Nat.reduceEqDiff, reduceIte] at h
      simp at h
    · -- parse_pair_inner
      intro bs p r h
      simp only [parse_pair_inner] at h
      rcases h1 : parse f bs with ⟨first, bs1⟩ | e | - <;> simp only [h1] at h
      · rcases h2 : parse f bs1 with ⟨second, bs2⟩ | e | - <;> simp only [h2] at h
        · simp only [PRes.ok.injEq, Prod.mk.injEq] at h
          obtain ⟨hp, -⟩ := h
          subst hp
          exact ⟨ihp bs first bs1 h1, ihp bs1 second bs2 h2⟩
        · simp at h
        · simp at h
      · simp at h
      · simp at h
    · -- parse_pair
      intro bs t r h
      simp only [parse_pair] at h
      rcases h1 : parse_pair_inner f bs with ⟨ab, rest⟩ | e | - <;> simp only [h1] at h
      · simp only [PRes.ok.injEq, Prod.mk.injEq] at h
        obtain ⟨ht, -⟩ := h
        subst ht
        obtain ⟨ha, hb⟩ := ihpi bs ab rest h1
        simp [Tag.dictsNonempty, ha, hb]
      · simp at h
      · simp at h
    · -- parse_dict_inner
      intro tgt bs m r htgt h
      simp only [parse_dict_inner] at h
      rcases hb : expect_byte bs with e | ⟨b, bs1⟩ <;> simp only [hb] at h
      · simp at h
      · by_cases h7 : b = 0x7
        · subst h7
          simp only [ne_eq, Nat.reduceEqDiff, not_true_eq_false, if_false, reduceIte] at h
          rcases hpair : parse_pair_inner f bs1 with ⟨⟨p1, p2⟩, bs2⟩ | e | - <;>
            simp only [hpair] at h
          · obtain ⟨hp1d, hp2d⟩ := ihpi bs1 (p1, p2) bs2 hpair
            cases p1 with
            | Symbol name =>
              rcases hb2 : expect_byte bs2 with e | ⟨nb, bs3⟩ <;> simp only [hb2] at h
              · simp at h
              · by_cases h6 : nb = 0x6
                · subst h6
                  simp only [Nat.reduceEqDiff, reduceIte] at h
                  simp only [PRes.ok.injEq, Prod.mk.injEq] at h
                  obtain ⟨hm, -⟩ := h
                  subst hm
                  exact ⟨dictsNonemptyEntries_insertEntry tgt name p2 htgt hp2d,
                    insertEntry_length_pos tgt name p2⟩
                by_cases h9 : nb = 0x9
                · subst h9
                  simp only [Nat.reduceEqDiff, reduceIte] at h
                  exact ihdi (insertEntry tgt name p2) bs3 m r
                    (dictsNonemptyEntries_insertEntry tgt name p2 htgt hp2d) h
                simp only [h6, h9, if_false, Nat.reduceEqDiff, reduceIte] at h
                simp at h
            | Bool b => simp at h
            | Int32 n => simp at h
            | Double n => simp at h
            | Null => simp at h
            | Pair a b => simp at h
            | Dict entries => simp at h
            | UInt64 n => simp at h
            | Tuple xs => simp at h
          · simp at h
          · simp at h
        · rw [if_pos h7] at h
          simp at h
    · -- parse_dict
      intro bs t r h
      simp only [parse_dict] at h
      rcases hd : parse_dict_inner f [] bs with ⟨dict, rest⟩ | e | - <;>
        simp only [hd] at h
      · simp only [PRes.ok.injEq, Prod.mk.injEq] at h
        obtain ⟨ht, -⟩ := h
        subst ht
        obtain ⟨hne, hlen⟩ := ihdi [] bs dict rest (by simp [dictsNonemptyEntries]) hd
        have hie : dict.isEmpty = false := by
          cases dict
          · simp at hlen
          · simp
        simp [Tag.dictsNonempty, hne, hie]
      · simp at h
      · simp at h
    · -- parse_tuple_loop
      intro n bs ts r h
      cases n with
      | zero =>
        simp only [parse_tuple_loop] at h
        simp only [PRes.ok.injEq, Prod.mk.injEq] at h
        obtain ⟨ht, -⟩ := h
        subst ht
        simp [dictsNonemptyList]
      | succ n =>
        simp only [parse_tuple_loop] at h
        rcases h1 : parse f bs with ⟨t1, bs1⟩ | e | - <;> simp only [h1] at h
        · rcases h2 : parse_tuple_loop f n bs1 with ⟨ts1, bs2⟩ | e | - <;>
            simp only [h2] at h
          · simp only [PRes.ok.injEq, Prod.mk.injEq] at h
            obtain ⟨ht, -⟩ := h
            subst ht
            simp [dictsNonemptyList, ihp bs t1 bs1 h1, ihtl n bs1 ts1 bs2 h2]
          · simp at h
          · simp at h
        · simp at h
        · simp at h
    · -- parse_tuple
      intro bs t r h
      simp only [parse_tuple] at h
      rcases h32 : read_u32be bs with e | ⟨num, rest⟩ <;> rw [h32] at h
      · simp at h
      · rcases hl : parse_tuple_loop f num rest with ⟨vec, bs1⟩ | e | - <;>
          simp only [hl] at h
        · simp only [PRes.ok.injEq, Prod.mk.injEq] at h
          obtain ⟨ht, -⟩ := h
          subst ht
          simp [Tag.dictsNonempty, ihtl num rest vec bs1 hl]
        · simp at h
        · simp at h

end pmt

/-! Concrete fixtures used by the claim theorems. -/

/-- A concrete src/header.rs header: 1 Hz, Byte, real, 16 data bytes at
byte 0, null extra dict. -/
def sampleHeader : header.Header :=
  ⟨1, 1, 0, 1, .Byte, false, 0, 16, .Null, 0, 0⟩

/-- A concrete src/core.rs header: rate 1 Hz, Byte, real, 10 data bytes with
absolute data start 0. -/
def hdrRate1 : core.Header :=
  ⟨1, 1, 0, 1, .Byte, false, 0, 10, .Null, 0, 0⟩

/-- A second src/core.rs header adjacent to `hdrRate1` but at sample rate
2 Hz. -/
def hdrRate2 : core.Header :=
  ⟨2, 1 / 2, 0, 1, .Byte, false, 11, 10, .Null, 11, 21⟩

/-- Header storage holding only `hdrRate1`. -/
def singleStorage : core.HeaderStorage := ⟨[(0, hdrRate1)]⟩

/-- Header storage holding two adjacent segments whose sample rates differ. -/
def twoRateStorage : core.HeaderStorage := ⟨[(0, hdrRate1), (11, hdrRate2)]⟩

/-- A header-reader strategy over `twoRateStorage` with no further headers. -/
def constStrategy : core.Strategy Unit :=
  ⟨fun _ => twoRateStorage, fun _ _ => (), fun _ _ => .ok (none, ())⟩

/-! The claim theorems. -/

/-- C1: the spec claims that encoding any supported Tag per the section-4.1
wire format and re-parsing yields an equal value, in particular for Symbols
(type byte 0x2, u16 length, UTF-8 bytes). The code fails this: `parse_symbol`
reads into the zero-length slice of `Vec::with_capacity(len)`, so parsing the
encoding of the one-byte symbol "a" yields `Err(UnexpectedEOF)` instead of
the symbol. -/
theorem symbol_roundtrip_fails :
    pmt.encode (.Symbol [0x61]) = [0x2, 0x0, 0x1, 0x61] ∧
    pmt.parse 4 (pmt.encode (.Symbol [0x61])) = .err .UnexpectedEOF := by
  have he : pmt.encode (.Symbol [0x61]) = [0x2, 0x0, 0x1, 0x61] := by
    simp [pmt.encode, pmt.u16be]
  refine ⟨he, ?_⟩
  rw [he]
  rfl

/-- C2: the spec claims `read_samples` stops at a sample-rate boundary and
returns Ok with the first segment's count. In the code, any call with a
nonempty buffer panics immediately inside `HeaderStorage::get_header_for_byte`
(`todo!()`), before any sample is read or any boundary is examined. -/
theorem read_samples_always_panics (σ : Type) (St : core.Strategy σ)
    (fuel bufLen : Nat) (e : core.Engine σ) (hbuf : 0 < bufLen) :
    core.read_samples St fuel bufLen e = .panicked := by
  simp only [core.read_samples, core.read_samples_loop, hbuf, if_true,
    core.read_samples_step, core.get_last_and_applicable_header,
    core.get_last_read_header, core.HeaderReader.get_header_for_byte,
    core.HeaderStorage.get_header_for_byte]

/-- Witness for C2: two adjacent segments at sample rates 1 and 2 with an
8-slot buffer. -/
theorem read_samples_always_panics_witness :
    0 < 8 ∧ core.read_samples constStrategy 3 8 ⟨(), 0⟩ = .panicked :=
  ⟨by decide,
    read_samples_always_panics Unit constStrategy 3 8 ⟨(), 0⟩ (by decide)⟩

/-- C3: the preserve-level gating of `is_compatible_with` (which levels
require equal sample rate, exact dtype, convertibility) matches the spec, but
the claim that exact-format levels automatically satisfy the convertibility
check so the call never fails is false: every level except `None` and
`SampleRate` reaches `DataType::converts_to_dtype`, which is `todo!()` and
panics, even on two headers with equal dtype and equal sample rate. -/
theorem is_compatible_with_panics_on_convertability :
    (∀ p : header.SeekPreserve, p.preserves_samplerate =
      (decide (p = .All) || decide (p = .Segment) || decide (p = .SampleRate) ||
        decide (p = .SampleRateAndConvertability))) ∧
    (∀ p : header.SeekPreserve, p.preserves_format =
      (decide (p = .Format) || decide (p = .All) || decide (p = .Segment))) ∧
    (∀ p : header.SeekPreserve, p.preserves_convertability =
      (!decide (p = .None) && !decide (p = .SampleRate))) ∧
    sampleHeader.is_compatible_with sampleHeader .All = .panicked ∧
    sampleHeader.is_compatible_with sampleHeader .Format = .panicked ∧
    sampleHeader.is_compatible_with sampleHeader .Segment = .panicked ∧
    sampleHeader.is_compatible_with sampleHeader .Convertability = .panicked ∧
    sampleHeader.is_compatible_with sampleHeader .SampleRateAndConvertability
      = .panicked ∧
    sampleHeader.is_compatible_with sampleHeader .None = .val true ∧
    sampleHeader.is_compatible_with sampleHeader .SampleRate = .val true := by
  refine ⟨?_, ?_, ?_, ?_, ?_, ?_, ?_, ?_, ?_, ?_⟩ <;>
    first
      | (intro p; cases p <;> rfl)
      | rfl

/-- C4: the spec claims that across increasing-byte `get_header_for_byte`
calls the storage only ever grows with strictly larger keys. In the code
every call to the reader's `get_header_for_byte` panics at once in
`HeaderStorage::get_header_for_byte` (`todo!()`), so no call completes and no
header is ever inserted through this path. -/
theorem get_header_for_byte_always_panics (σ : Type) (St : core.Strategy σ)
    (fuel : Nat) (s : σ) (byte : Nat) :
    core.HeaderReader.get_header_for_byte St fuel s byte = .panicked := rfl

/-- C5: the spec claims `load_next_header` is called at the byte immediately
following the last indexed segment's data, `abs_pos + bytes`. The code's
`get_first_byte_of_next_header_to_read` computes `abs_pos + bytes + 1`
(next to a `TODO: bytes may be wrong!` comment), one byte past that. -/
theorem next_header_byte_off_by_one :
    core.get_first_byte_of_next_header_to_read singleStorage = 11 ∧
    hdrRate1.abs_pos + hdrRate1.bytes = 10 ∧
    core.get_first_byte_of_next_header_to_read singleStorage ≠
      hdrRate1.abs_pos + hdrRate1.bytes :=
  ⟨rfl, rfl, by decide⟩

/-- C6: the spec claims type codes 0..4 map to Byte, Short, Int, Float,
Double. The code's `DataType::from_int` maps only 0 to `Byte` and returns
`Err(WrongDataType)` for 1, 2, 3 and 4. -/
theorem from_int_rejects_nonzero_codes :
    header.DataType.from_int 0 = .ok .Byte ∧
    header.DataType.from_int 1 = .error (.WrongDataType 1) ∧
    header.DataType.from_int 2 = .error (.WrongDataType 2) ∧
    header.DataType.from_int 3 = .error (.WrongDataType 3) ∧
    header.DataType.from_int 4 = .error (.WrongDataType 4) := by
  refine ⟨rfl, rfl, rfl, rfl, rfl⟩

/-- C7: the spec claims any unrecognized leading type byte yields an
unrecognized-tag `Err`. The code's `parse_tag` instead hits
`todo!("Unimplemented")` and panics (`ParseError` has no unrecognized-tag
variant at all). -/
theorem unrecognized_byte_panics (b : Nat) (bs : pmt.Bytes) (f : Nat)
    (hb : b ∉ ([0x0, 0x1, 0x2, 0x3, 0x4, 0x6, 0x7, 0x9, 0xb, 0xc] : List Nat)) :
    pmt.parse (f + 2) (b :: bs) = .panicked := by
  simp only [List.mem_cons, List.not_mem_nil, or_false, not_or] at hb
  obtain ⟨h0, h1, h2, h3, h4, h6, h7, h9, hbb, hc⟩ := hb
  simp only [pmt.parse, pmt.expect_byte, pmt.parse_tag, h0, h1, h2, h3, h4, h6,
    h7, h9, hbb, hc, if_false, Nat.reduceEqDiff, reduceIte]

/-- Witness for C7 at the concrete unrecognized byte 0x5. -/
theorem unrecognized_byte_panics_witness :
    pmt.parse 2 [0x5] = .panicked :=
  unrecognized_byte_panics 0x5 [] 0 (by decide)

/-- C8: the spec claims `is_continuation_of` computes a 0.1-sample-duration
tolerance comparison. In the code its first step, `other.get_num_samples()`,
is `todo!()`, so every call panics. -/
theorem is_continuation_of_panics (h1 h2 : header.Header) :
    h1.is_continuation_of h2 = .panicked := rfl

/-- C9: across the ten native (dtype, complex) representations,
`reads_directly_to` implies `converts_to`, and `converts_to` is reflexive at
each data type's own native representation under either complex flag. -/
theorem reads_directly_implies_converts :
    (∀ (d : header.DataType) (c : Bool) (T : header.TargetTy),
      d.reads_directly_to c T = true → d.converts_to c T = true) ∧
    (∀ (d : header.DataType) (c : Bool),
      d.converts_to c (d.nativeRep c) = true) := by
  constructor
  · intro d c T h
    cases d <;> cases c <;> rcases T with ⟨s⟩ | ⟨s⟩ <;> cases s <;>
      simp_all [header.DataType.reads_directly_to, header.DataType.converts_to]
  · intro d c
    cases d <;> cases c <;> rfl

/-- Witness for C9 at `(Byte, real, i8)`. -/
theorem reads_directly_implies_converts_witness :
    header.DataType.converts_to .Byte false (.scalar .i8) = true :=
  reads_directly_implies_converts.1 .Byte false (.scalar .i8) (by rfl)

/-- C10: a dict type byte (0x9) immediately followed by the null terminator
(0x6) is a malformed-dict error, and every Dict value that `parse` produces,
at any depth of the parsed tag, holds at least one key-value entry. -/
theorem parse_rejects_empty_dict :
    (∀ f rest, pmt.parse (f + 4) (0x9 :: 0x6 :: rest) = .err .MalformedDict) ∧
    (∀ f bs t r, pmt.parse f bs = .ok (t, r) → t.dictsNonempty = true) := by
  constructor
  · intro f rest
    simp [pmt.parse, pmt.parse_tag, pmt.parse_dict, pmt.parse_dict_inner,
      pmt.expect_byte]
  · exact fun f => (pmt.parse_nonempty_aux f).1

/-- Witness for C10: a one-entry dictionary parses and satisfies the
nonemptiness predicate. -/
theorem parse_rejects_empty_dict_witness :
    pmt.Tag.dictsNonempty (.Dict [([], .Null)]) = true :=
  parse_rejects_empty_dict.2 10 [0x9, 0x7, 0x2, 0x0, 0x0, 0x6, 0x6]
    (.Dict [([], .Null)]) [] (by rfl)

end GnuradioMeta
